import Mathlib

/-!
Verification of the domain-lookup pipeline in `src/lookup.js`.

The JavaScript source is shallowly embedded: words, C/V signatures and
domain names are `List Char`; the registrar's bulk-availability endpoint
is an oracle supplying one `FetchOutcome` per batch; a rejected fetch
(a transport failure) is an uncaught exception, modelled as
`Except.error`.  All definitions are executable.
-/

/-- JS `String.prototype.includes` (substring containment) on `List Char`. -/
def jsIncludes (needle : List Char) : List Char → Bool
  | [] => needle.isEmpty
  | a :: t => needle.isPrefixOf (a :: t) || jsIncludes needle t

/-- JS `String.prototype.trim` on `List Char`. -/
def jsTrim (s : List Char) : List Char :=
  ((s.dropWhile Char.isWhitespace).reverse.dropWhile Char.isWhitespace).reverse

/-- JS `String.prototype.toUpperCase` on `List Char`. -/
def jsToUpperCase (s : List Char) : List Char := s.map Char.toUpper

/-- JS `String.prototype.split(",")` on `List Char`. -/
def jsSplitComma : List Char → List (List Char)
  | [] => [[]]
  | c :: rest =>
    match jsSplitComma rest with
    | [] => [[]]
    | g :: gs => if c = ',' then [] :: g :: gs else (c :: g) :: gs

/-- `const VOWELS = "aeiou"` (lookup.js line 40). -/
def VOWELS : List Char := "aeiou".data

/-- `const CONSONANTS = "bcdfghjklmnpqrstvwxyz"` (lookup.js line 41). -/
def CONSONANTS : List Char := "bcdfghjklmnpqrstvwxyz".data

/-- `isVowel` (lookup.js lines 43-45). -/
def isVowel (c : Char) : Bool := VOWELS.contains c.toLower

/-- `isConsonant` (lookup.js lines 47-49). -/
def isConsonant (c : Char) : Bool := CONSONANTS.contains c.toLower

/-- `getPattern` (lookup.js lines 51-57): one `'V'` per vowel, `'C'` otherwise. -/
def getPattern (word : List Char) : List Char :=
  word.map (fun c => if isVowel c then 'V' else 'C')

/-- `matchesPattern` (lookup.js lines 59-78). -/
def matchesPattern (word pattern : List Char) : Bool :=
  let wordPattern := getPattern word
  if wordPattern.length = pattern.length then
    wordPattern == pattern
  else if pattern.length < wordPattern.length then
    pattern.isPrefixOf wordPattern || pattern.isSuffixOf wordPattern ||
      jsIncludes pattern wordPattern
  else
    wordPattern.isPrefixOf pattern || jsIncludes wordPattern pattern

/-- Modelled from the spec: the symmetrized variant of `matchesPattern` that
§4.1/§9 of the design discuss, with the ends-with check that the
longer-pattern branch of the source lacks.  Used only to compare with
`matchesPattern`. -/
def matchesPatternSymmetrized (word pattern : List Char) : Bool :=
  let wordPattern := getPattern word
  if wordPattern.length = pattern.length then
    wordPattern == pattern
  else if pattern.length < wordPattern.length then
    pattern.isPrefixOf wordPattern || pattern.isSuffixOf wordPattern ||
      jsIncludes pattern wordPattern
  else
    wordPattern.isPrefixOf pattern || wordPattern.isSuffixOf pattern ||
      jsIncludes wordPattern pattern

/-- `hasGoodPronounceability` (lookup.js lines 80-104). -/
def hasGoodPronounceability (word : List Char) : Bool :=
  let pattern := getPattern word
  if jsIncludes "CCC".data pattern || jsIncludes "CCCC".data pattern then false
  else if jsIncludes "VVV".data pattern then false
  else if !jsIncludes "V".data pattern then false
  else if !jsIncludes "C".data pattern then false
  else true

/-- `getBestPatternsForLength` (lookup.js lines 106-118): object lookup with
default `[]`. -/
def getBestPatternsForLength (length : Nat) : List (List Char) :=
  if length = 2 then ["CV".data, "VC".data]
  else if length = 3 then ["CVC".data, "VCV".data, "CVV".data]
  else if length = 4 then ["CVCV".data, "CVCC".data, "VCVC".data, "CVVC".data]
  else if length = 5 then ["CVCVC".data, "CVCCV".data, "CVCVV".data, "VCVCV".data]
  else if length = 6 then ["CVCVCV".data, "CVCCVC".data, "CVCVCC".data, "VCVCVC".data]
  else if length = 7 then ["CVCVCVC".data, "CVCCVCV".data, "CVCVCCV".data]
  else []

/-- `filterByPattern` (lookup.js lines 120-161).  The global
`numberOfLetters` that the source reads is passed explicitly. -/
def filterByPattern (numberOfLetters : Nat) (combos : List (List Char))
    (patternFilter : List Char) : List (List Char) :=
  if patternFilter = "none".data then combos
  else if patternFilter = "auto".data then
    let patternsToMatch := getBestPatternsForLength numberOfLetters
    if patternsToMatch.length = 0 then
      combos.filter hasGoodPronounceability
    else
      combos.filter (fun combo =>
        patternsToMatch.any (fun pat => matchesPattern combo pat) &&
          hasGoodPronounceability combo)
  else
    let patternsToMatch := (jsSplitComma patternFilter).map (fun p => jsToUpperCase (jsTrim p))
    combos.filter (fun combo =>
      patternsToMatch.any (fun pat => matchesPattern combo pat) &&
        hasGoodPronounceability combo)

/-- The signature set `patternsToMatch` that `filterByPattern` matches
against when the filter is not disabled (lookup.js lines 125-142). -/
def activePatterns (numberOfLetters : Nat) (patternFilter : List Char) : List (List Char) :=
  if patternFilter = "auto".data then getBestPatternsForLength numberOfLetters
  else (jsSplitComma patternFilter).map (fun p => jsToUpperCase (jsTrim p))

/-- `const letters = "abcdefghijklmnopqrstuvwxyz"` (lookup.js line 164). -/
def LETTERS : List Char := "abcdefghijklmnopqrstuvwxyz".data

/-- The `recurse` closure of `generateCombos` (lookup.js lines 166-172).
The first argument is the remaining depth `length - depth`. -/
def generateCombosAux : Nat → List Char → List (List Char)
  | 0, pre => [pre]
  | r + 1, pre => LETTERS.flatMap (fun c => generateCombosAux r (pre ++ [c]))

/-- `generateCombos` (lookup.js lines 163-175). -/
def generateCombos (length : Nat) : List (List Char) :=
  generateCombosAux length []

/-- `const BATCH_SIZE = 50` (lookup.js line 20). -/
def BATCH_SIZE : Nat := 50

/-- `const SAVE_INTERVAL = 500` (lookup.js line 207). -/
def SAVE_INTERVAL : Nat := 500

/-- One entry of the registrar response: `{ domain, available }`. -/
structure AvailRecord where
  domain : List Char
  available : Bool
deriving DecidableEq, Repr

/-- Result of one `fetch` to the availability endpoint: either the promise
rejects (a transport failure) or a response arrives with `response.ok`
and an optional `data.domains` list. -/
inductive FetchOutcome where
  | transportError
  | response (ok : Bool) (domains : Option (List AvailRecord))
deriving DecidableEq, Repr

/-- `checkDomainsBatch` (lookup.js lines 230-248) with the fetch result
supplied as `outcome`.  A non-ok response returns `[]`; an ok response
returns `data.domains || []`; a rejected fetch is an uncaught exception
(`Except.error`) — the source has no try/catch. -/
def checkDomainsBatch (_domains : List (List Char)) (outcome : FetchOutcome) :
    Except Unit (List AvailRecord) :=
  match outcome with
  | .transportError => .error ()
  | .response ok ds => if ok then .ok (ds.getD []) else .ok []

/-- The domains of the records flagged available, in response order
(the `if (res.available)` loop, lookup.js lines 296-304). -/
def availableNames (results : List AvailRecord) : List (List Char) :=
  (results.filter (fun r => r.available)).map (fun r => r.domain)

/-- Per-TLD state of the batch loop (lookup.js lines 284-335):
`available[tld]`, `pendingDomains`, `lastSavedAt`, `domainCounters[tld]`,
plus two ghost logs — the counter value after each batch, and the writer
calls (`appendDomainsToFile`) as pairs (counter at save, names appended). -/
structure TldState where
  available : List (List Char)
  pending : List (List Char)
  lastSavedAt : Nat
  checked : Nat
  checkedLog : List Nat
  saves : List (Nat × List (List Char))
deriving DecidableEq, Repr

/-- State at `pendingDomains = []; let lastSavedAt = 0;` with the counter
initialized to 0 (lookup.js lines 215, 286-287). -/
def initState : TldState :=
  { available := [], pending := [], lastSavedAt := 0, checked := 0,
    checkedLog := [], saves := [] }

/-- One successful iteration of the batch loop body (lookup.js lines
296-324): accumulate available names, bump the counter by the actual
batch size, and save iff the threshold is crossed or the counter reached
the total, and the pending buffer is nonempty. -/
def batchStep (totalCombos : Nat) (st : TldState) (batch : List (List Char))
    (results : List AvailRecord) : TldState :=
  let newNames := availableNames results
  let pending := st.pending ++ newNames
  let checked := st.checked + batch.length
  let doSave := (SAVE_INTERVAL ≤ checked - st.lastSavedAt ∨ checked = totalCombos) ∧
    0 < pending.length
  { available := st.available ++ newNames,
    pending := if doSave then [] else pending,
    lastSavedAt := if doSave then checked else st.lastSavedAt,
    checked := checked,
    checkedLog := st.checkedLog ++ [checked],
    saves := if doSave then st.saves ++ [(checked, pending)] else st.saves }

/-- The batch-loop body including the query: an uncaught exception from
`checkDomainsBatch` propagates. -/
def processBatch (totalCombos : Nat) (st : TldState) (batch : List (List Char))
    (outcome : FetchOutcome) : Except Unit TldState :=
  match checkDomainsBatch batch outcome with
  | .error e => .error e
  | .ok results => .ok (batchStep totalCombos st batch results)

/-- `combos.slice(i, i + BATCH_SIZE)` for `i = 0, 50, 100, ...`
(lookup.js lines 289-292), via a fuel argument (`xs.length` suffices
since every step drops at least one element). -/
def chunkListAux {α : Type} : Nat → List α → List (List α)
  | _, [] => []
  | 0, _ :: _ => []
  | fuel + 1, x :: xs => (x :: xs).take BATCH_SIZE :: chunkListAux fuel ((x :: xs).drop BATCH_SIZE)

/-- The successive batches the loop slices out of `combos`. -/
def chunkList {α : Type} (xs : List α) : List (List α) :=
  chunkListAux xs.length xs

/-- The inner `for` loop over batch starts (lookup.js lines 289-326),
with the fetch outcome of the `i`-th batch supplied by `oracle i`. -/
def runBatches (totalCombos : Nat) (oracle : Nat → FetchOutcome) (tld : List Char) :
    List (List (List Char)) → Nat → TldState → Except Unit TldState
  | [], _, st => .ok st
  | chunk :: rest, i, st =>
    let batch := chunk.map (fun combo => combo ++ tld)
    match processBatch totalCombos st batch (oracle i) with
    | .error e => .error e
    | .ok st' => runBatches totalCombos oracle tld rest (i + 1) st'

/-- One TLD's full run (lookup.js lines 284-335): the batch loop followed
by the final flush of any remaining pending names. -/
def runTld (combos : List (List Char)) (tld : List Char) (oracle : Nat → FetchOutcome) :
    Except Unit TldState :=
  match runBatches combos.length oracle tld (chunkList combos) 0 initState with
  | .error e => .error e
  | .ok st =>
    .ok (if 0 < st.pending.length then
      { st with pending := [], saves := st.saves ++ [(st.checked, st.pending)] }
    else st)

/-- Projection used to state save-cadence scenarios: the counter values at
which the writer was called during a completed run. -/
def savesCheckpoints : Except Unit TldState → List Nat
  | .error _ => []
  | .ok st => st.saves.map Prod.fst

/-! ### Bridge lemmas between the executable JS string tests and the
prefix/suffix/substring relations -/

theorem jsIncludes_iff_infix (needle hay : List Char) :
    jsIncludes needle hay = true ↔ needle <:+: hay := by
  induction hay with
  | nil => simp [jsIncludes, List.isEmpty_iff]
  | cons a t ih =>
    simp only [jsIncludes, Bool.or_eq_true, ih, List.isPrefixOf_iff_prefix,
      List.infix_cons_iff]

/-! ### C4 and C9: the `matchesPattern` branch structure -/

/-- C4: with `S` the word's signature, `matchesPattern` is exact equality
when `|S| = |P|`; starts-with / ends-with / contains when `|P| < |S|`;
and starts-with / contains (no ends-with check) when `|P| > |S|`. -/
theorem C4_matches_branches (word pattern : List Char) :
    matchesPattern word pattern = true ↔
      (if (getPattern word).length = pattern.length then
        getPattern word = pattern
      else if pattern.length < (getPattern word).length then
        pattern <+: getPattern word ∨ pattern <:+ getPattern word ∨
          pattern <:+: getPattern word
      else
        getPattern word <+: pattern ∨ getPattern word <:+: pattern) := by
  by_cases h1 : (getPattern word).length = pattern.length
  · simp [matchesPattern, h1]
  · by_cases h2 : pattern.length < (getPattern word).length
    · simp [matchesPattern, h1, h2, List.isPrefixOf_iff_prefix,
        List.isSuffixOf_iff_suffix, jsIncludes_iff_infix, or_assoc]
    · simp [matchesPattern, h1, h2, List.isPrefixOf_iff_prefix, jsIncludes_iff_infix]

/-- C9: for `|S| ≠ |P|` the match is exactly "the shorter signature occurs
inside the longer" — the starts-with/ends-with disjuncts are subsumed by
containment — so adding the missing ends-with check to the longer-pattern
branch (`matchesPatternSymmetrized`) changes no result. -/
theorem C9_asymmetry_vacuous (word pattern : List Char)
    (h : (getPattern word).length ≠ pattern.length) :
    (matchesPattern word pattern = true ↔
      (if pattern.length < (getPattern word).length then
        pattern <:+: getPattern word
      else getPattern word <:+: pattern)) ∧
    matchesPatternSymmetrized word pattern = matchesPattern word pattern := by
  constructor
  · by_cases h2 : pattern.length < (getPattern word).length
    · simp only [matchesPattern, if_neg h, if_pos h2, Bool.or_eq_true,
        List.isPrefixOf_iff_prefix, List.isSuffixOf_iff_suffix,
        jsIncludes_iff_infix, or_assoc]
      exact ⟨fun hh => by
          rcases hh with h3 | h3 | h3
          exacts [h3.isInfix, h3.isInfix, h3],
        fun hh => Or.inr (Or.inr hh)⟩
    · simp only [matchesPattern, if_neg h, if_neg h2, Bool.or_eq_true,
        List.isPrefixOf_iff_prefix, jsIncludes_iff_infix]
      exact ⟨fun hh => by rcases hh with h3 | h3; exacts [h3.isInfix, h3],
        fun hh => Or.inr hh⟩
  · by_cases h2 : pattern.length < (getPattern word).length
    · simp [matchesPattern, matchesPatternSymmetrized, h, h2]
    · simp only [matchesPattern, matchesPatternSymmetrized, if_neg h, if_neg h2]
      rw [Bool.eq_iff_iff]
      simp only [Bool.or_eq_true, List.isPrefixOf_iff_prefix,
        List.isSuffixOf_iff_suffix, jsIncludes_iff_infix, or_assoc]
      exact ⟨fun hh => by
          rcases hh with h3 | h3 | h3
          exacts [Or.inl h3, Or.inr h3.isInfix, Or.inr h3],
        fun hh => by rcases hh with h3 | h3; exacts [Or.inl h3, Or.inr (Or.inr h3)]⟩

/-- Witness for C9 at word `"ab"` (signature `VC`, length 2) and pattern
`"V"` (length 1). -/
theorem C9_asymmetry_vacuous_witness :
    ((getPattern "ab".data).length ≠ ("V".data).length) ∧
    ((matchesPattern "ab".data "V".data = true ↔
      (if ("V".data).length < (getPattern "ab".data).length then
        "V".data <:+: getPattern "ab".data
      else getPattern "ab".data <:+: "V".data)) ∧
    matchesPatternSymmetrized "ab".data "V".data = matchesPattern "ab".data "V".data) :=
  ⟨by decide, C9_asymmetry_vacuous "ab".data "V".data (by decide)⟩

/-! ### C8: the "none" sentinel disables filtering -/

/-- C8: with `patternSpec = "none"`, `filterByPattern` returns its input
unchanged, whatever the length hint. -/
theorem C8_none_identity (numberOfLetters : Nat) (combos : List (List Char)) :
    filterByPattern numberOfLetters combos "none".data = combos := by
  simp [filterByPattern]

/-! ### C6: the built-in pattern table -/

/-- Counterexample to C6: length 2 maps to only 2 signatures, not 3-4. -/
theorem C6_counterexample :
    (getBestPatternsForLength 2).length = 2 ∧
    ¬(3 ≤ (getBestPatternsForLength 2).length ∧
      (getBestPatternsForLength 2).length ≤ 4) := by
  decide

/-- C6 amended: the table is keyed by lengths 2-7, length 2 mapping to the
2 signatures `{CV, VC}`, lengths 3-7 each to 3-4 signatures (length 3 to
`{CVC, VCV, CVV}`), and every length outside 2-7 yields `[]`. -/
theorem C6_amended_table :
    getBestPatternsForLength 2 = ["CV".data, "VC".data] ∧
    getBestPatternsForLength 3 = ["CVC".data, "VCV".data, "CVV".data] ∧
    (3 ≤ (getBestPatternsForLength 3).length ∧ (getBestPatternsForLength 3).length ≤ 4) ∧
    (3 ≤ (getBestPatternsForLength 4).length ∧ (getBestPatternsForLength 4).length ≤ 4) ∧
    (3 ≤ (getBestPatternsForLength 5).length ∧ (getBestPatternsForLength 5).length ≤ 4) ∧
    (3 ≤ (getBestPatternsForLength 6).length ∧ (getBestPatternsForLength 6).length ≤ 4) ∧
    (3 ≤ (getBestPatternsForLength 7).length ∧ (getBestPatternsForLength 7).length ≤ 4) ∧
    getBestPatternsForLength 0 = [] ∧
    getBestPatternsForLength 1 = [] ∧
    (∀ L : Nat, getBestPatternsForLength (L + 8) = []) := by
  refine ⟨by decide, by decide, by decide, by decide, by decide, by decide,
    by decide, by decide, by decide, ?_⟩
  intro L
  simp only [getBestPatternsForLength]
  rw [if_neg (by omega), if_neg (by omega), if_neg (by omega), if_neg (by omega),
    if_neg (by omega), if_neg (by omega)]

/-! ### C2: the combination generator -/

theorem generateCombosAux_shift (n : Nat) :
    ∀ pre : List Char, generateCombosAux n pre =
      (generateCombosAux n []).map (fun s => pre ++ s) := by
  induction n with
  | zero => intro pre; simp [generateCombosAux]
  | succ r ih =>
    intro pre
    simp only [generateCombosAux, List.nil_append, List.map_flatMap]
    refine congrArg _ (funext fun c => ?_)
    rw [ih (pre ++ [c]), ih [c], List.map_map]
    exact List.map_congr_left (fun s _ => by simp [List.append_assoc])

theorem generateCombos_succ (n : Nat) :
    generateCombos (n + 1) =
      LETTERS.flatMap (fun c => (generateCombos n).map (fun s => c :: s)) := by
  simp only [generateCombos, generateCombosAux, List.nil_append]
  refine congrArg _ (funext fun c => ?_)
  rw [generateCombosAux_shift n [c]]
  simp only [List.singleton_append]

theorem length_flatMap_map_cons (cs : List Char) (G : List (List Char)) :
    (cs.flatMap (fun c => G.map (fun s => c :: s))).length = cs.length * G.length := by
  induction cs with
  | nil => simp
  | cons c cs ih =>
    simp only [List.flatMap_cons, List.length_append, List.length_map, ih, List.length_cons]
    rw [Nat.succ_mul]
    omega

theorem length_generateCombos (n : Nat) : (generateCombos n).length = 26 ^ n := by
  induction n with
  | zero => rfl
  | succ r ih =>
    rw [generateCombos_succ, length_flatMap_map_cons, ih,
      show LETTERS.length = 26 from rfl, Nat.pow_succ, Nat.mul_comm]

theorem mem_generateCombos (n : Nat) :
    ∀ s ∈ generateCombos n, s.length = n ∧ ∀ c ∈ s, c ∈ LETTERS := by
  induction n with
  | zero =>
    intro s hs
    simp only [generateCombos, generateCombosAux, List.mem_singleton] at hs
    subst hs
    simp
  | succ r ih =>
    intro s hs
    rw [generateCombos_succ] at hs
    simp only [List.mem_flatMap, List.mem_map] at hs
    obtain ⟨c, hc, t, ht, rfl⟩ := hs
    obtain ⟨hlen, hmem⟩ := ih t ht
    refine ⟨by simp [hlen], ?_⟩
    intro x hx
    rcases List.mem_cons.mp hx with rfl | hx
    · exact hc
    · exact hmem x hx

theorem charlist_lex_irrefl : ∀ l : List Char, ¬ List.Lex (· < ·) l l := by
  intro l
  induction l with
  | nil => intro h; cases h
  | cons a t ih =>
    intro h
    cases h with
    | cons h' => exact ih h'
    | rel h' => exact absurd h' (lt_irrefl a)

theorem pairwise_lex_generateCombos (n : Nat) :
    (generateCombos n).Pairwise (List.Lex (· < ·)) := by
  induction n with
  | zero => simp [generateCombos, generateCombosAux]
  | succ r ih =>
    rw [generateCombos_succ, List.pairwise_flatMap]
    constructor
    · intro c _
      rw [List.pairwise_map]
      exact ih.imp (fun h => List.Lex.cons h)
    · have hL : LETTERS.Pairwise (· < ·) := by decide
      refine hL.imp ?_
      intro a b hab x hx y hy
      simp only [List.mem_map] at hx hy
      obtain ⟨s, _, rfl⟩ := hx
      obtain ⟨t, _, rfl⟩ := hy
      exact List.Lex.rel hab

theorem nodup_generateCombos (n : Nat) : (generateCombos n).Nodup := by
  refine (pairwise_lex_generateCombos n).imp ?_
  intro a b hl heq
  exact charlist_lex_irrefl b (heq ▸ hl)

/-- C2: for every `L ≥ 1` the generator yields exactly `26^L` strings,
pairwise distinct, each of length `L` over the lowercase alphabet, and
the output is in lexicographic order. -/
theorem C2_generator_correct (L : Nat) (h : 1 ≤ L) :
    (generateCombos L).length = 26 ^ L ∧
    (∀ s ∈ generateCombos L, s.length = L ∧ ∀ c ∈ s, c ∈ LETTERS) ∧
    (generateCombos L).Pairwise (List.Lex (· < ·)) ∧
    (generateCombos L).Nodup :=
  ⟨length_generateCombos L, mem_generateCombos L,
    pairwise_lex_generateCombos L, nodup_generateCombos L⟩

/-- Witness for C2 at `L = 1`. -/
theorem C2_generator_correct_witness :
    1 ≤ 1 ∧
    ((generateCombos 1).length = 26 ^ 1 ∧
      (∀ s ∈ generateCombos 1, s.length = 1 ∧ ∀ c ∈ s, c ∈ LETTERS) ∧
      (generateCombos 1).Pairwise (List.Lex (· < ·)) ∧
      (generateCombos 1).Nodup) :=
  ⟨by decide, C2_generator_correct 1 (by decide)⟩

/-! ### Batch slicing and the batch loop -/

theorem chunkListAux_congr {α : Type} :
    ∀ (f₁ f₂ : Nat) (xs : List α), xs.length ≤ f₁ → xs.length ≤ f₂ →
      chunkListAux f₁ xs = chunkListAux f₂ xs := by
  intro f₁
  induction f₁ with
  | zero =>
    intro f₂ xs h1 _
    have hx : xs = [] := List.length_eq_zero.mp (Nat.le_zero.mp h1)
    subst hx
    cases f₂ <;> rfl
  | succ g ih =>
    intro f₂ xs h1 h2
    cases xs with
    | nil => cases f₂ <;> rfl
    | cons x t =>
      cases f₂ with
      | zero => simp at h2
      | succ g₂ =>
        simp only [chunkListAux]
        congr 1
        apply ih
        · simp only [List.length_drop, List.length_cons, BATCH_SIZE]
          simp only [List.length_cons] at h1
          omega
        · simp only [List.length_drop, List.length_cons, BATCH_SIZE]
          simp only [List.length_cons] at h2
          omega

theorem chunkList_cons {α : Type} (x : α) (t : List α) :
    chunkList (x :: t) =
      (x :: t).take BATCH_SIZE :: chunkList ((x :: t).drop BATCH_SIZE) := by
  show chunkListAux (x :: t).length (x :: t) = _
  simp only [List.length_cons, chunkListAux]
  congr 1
  apply chunkListAux_congr
  · simp only [List.length_drop, List.length_cons, BATCH_SIZE]
    omega
  · exact Nat.le_refl _

theorem chunkList_sum_length_aux {α : Type} :
    ∀ (n : Nat) (xs : List α), xs.length ≤ n →
      ((chunkList xs).map List.length).sum = xs.length := by
  intro n
  induction n with
  | zero =>
    intro xs h
    have hx : xs = [] := List.length_eq_zero.mp (Nat.le_zero.mp h)
    subst hx
    rfl
  | succ m ih =>
    intro xs h
    cases xs with
    | nil => rfl
    | cons x t =>
      simp only [List.length_cons] at h
      rw [chunkList_cons]
      simp only [List.map_cons, List.sum_cons]
      rw [ih ((x :: t).drop BATCH_SIZE)
        (by simp only [List.length_drop, List.length_cons, BATCH_SIZE]; omega)]
      simp only [List.length_take, List.length_drop, List.length_cons, BATCH_SIZE]
      omega

/-- The running counter values `partialCounts a chunks`: the value of the
checked counter after each successive batch, starting from `a`. -/
def partialCounts {α : Type} (a : Nat) : List (List α) → List Nat
  | [] => []
  | b :: bs => (a + b.length) :: partialCounts (a + b.length) bs

theorem partialCounts_chunkList_aux {α : Type} :
    ∀ (n : Nat) (xs : List α) (a : Nat), xs.length ≤ n →
      partialCounts a (chunkList xs) =
        (List.range (chunkList xs).length).map
          (fun k => a + min (BATCH_SIZE * (k + 1)) xs.length) := by
  intro n
  induction n with
  | zero =>
    intro xs a h
    have hx : xs = [] := List.length_eq_zero.mp (Nat.le_zero.mp h)
    subst hx
    rfl
  | succ m ih =>
    intro xs a h
    cases xs with
    | nil => rfl
    | cons x t =>
      simp only [List.length_cons] at h
      rw [chunkList_cons]
      simp only [partialCounts, List.length_cons]
      rw [ih ((x :: t).drop BATCH_SIZE) (a + ((x :: t).take BATCH_SIZE).length)
        (by simp only [List.length_drop, List.length_cons, BATCH_SIZE]; omega)]
      rw [List.range_succ_eq_map]
      simp only [List.map_cons, List.map_map]
      congr 1
      · simp only [List.length_take, List.length_cons, BATCH_SIZE]
      · refine congrArg
          (fun f => List.map f (List.range (chunkList ((x :: t).drop BATCH_SIZE)).length))
          (funext fun k => ?_)
        simp only [Function.comp, List.length_take, List.length_drop, List.length_cons,
          BATCH_SIZE, Nat.succ_eq_add_one]
        omega

theorem checkDomainsBatch_response (b : List (List Char)) (ok : Bool)
    (ds : Option (List AvailRecord)) :
    checkDomainsBatch b (.response ok ds) = .ok (if ok then ds.getD [] else []) := by
  cases ok <;> rfl

theorem processBatch_response (totalCombos : Nat) (st : TldState)
    (batch : List (List Char)) (ok : Bool) (ds : Option (List AvailRecord)) :
    processBatch totalCombos st batch (.response ok ds) =
      .ok (batchStep totalCombos st batch (if ok then ds.getD [] else [])) := by
  simp [processBatch, checkDomainsBatch_response]

theorem batchStep_checked (totalCombos : Nat) (st : TldState)
    (batch : List (List Char)) (results : List AvailRecord) :
    (batchStep totalCombos st batch results).checked = st.checked + batch.length := rfl

theorem batchStep_checkedLog (totalCombos : Nat) (st : TldState)
    (batch : List (List Char)) (results : List AvailRecord) :
    (batchStep totalCombos st batch results).checkedLog =
      st.checkedLog ++ [st.checked + batch.length] := rfl

theorem runBatches_response_ok (totalCombos : Nat) (oracle : Nat → FetchOutcome)
    (tld : List Char) (h : ∀ i, oracle i ≠ FetchOutcome.transportError) :
    ∀ (chunks : List (List (List Char))) (i : Nat) (st : TldState),
      ∃ st', runBatches totalCombos oracle tld chunks i st = .ok st' ∧
        st'.checked = st.checked + (chunks.map List.length).sum ∧
        st'.checkedLog = st.checkedLog ++ partialCounts st.checked chunks := by
  intro chunks
  induction chunks with
  | nil => intro i st; exact ⟨st, rfl, by simp, by simp [partialCounts]⟩
  | cons chunk rest ih =>
    intro i st
    cases hoc : oracle i with
    | transportError => exact absurd hoc (h i)
    | response ok ds =>
      obtain ⟨st', hrun, hchk, hlog⟩ := ih (i + 1)
        (batchStep totalCombos st (chunk.map (fun combo => combo ++ tld))
          (if ok then ds.getD [] else []))
      refine ⟨st', ?_, ?_, ?_⟩
      · simp only [runBatches, hoc, processBatch_response]
        exact hrun
      · rw [hchk, batchStep_checked]
        simp only [List.length_map, List.map_cons, List.sum_cons]
        omega
      · rw [hlog, batchStep_checkedLog, batchStep_checked]
        simp only [List.length_map, partialCounts, List.append_assoc,
          List.singleton_append]

/-! ### C7: the per-TLD checked counter -/

/-- C7: with every batch answered by a response (no transport failure),
one TLD's run completes, the counter gains exactly the true batch size at
every step, the counter value after the `k`-th batch is
`min (50 * k) total`, and the final value is the total combination
count. -/
theorem C7_counter_invariant (combos : List (List Char)) (tld : List Char)
    (oracle : Nat → FetchOutcome) (h : ∀ i, oracle i ≠ FetchOutcome.transportError) :
    ∃ st, runTld combos tld oracle = .ok st ∧
      st.checked = combos.length ∧
      st.checkedLog = (List.range (chunkList combos).length).map
        (fun k => min (BATCH_SIZE * (k + 1)) combos.length) ∧
      (∀ (totalCombos : Nat) (s : TldState) (b : List (List Char))
        (res : List AvailRecord),
        (batchStep totalCombos s b res).checked = s.checked + b.length) := by
  obtain ⟨st₀, hrun, hchk, hlog⟩ :=
    runBatches_response_ok combos.length oracle tld h (chunkList combos) 0 initState
  have hsum : ((chunkList combos).map List.length).sum = combos.length :=
    chunkList_sum_length_aux combos.length combos (Nat.le_refl _)
  have hc : st₀.checked = combos.length := by
    rw [hchk]
    simp only [initState, hsum, Nat.zero_add]
  have hl : st₀.checkedLog = (List.range (chunkList combos).length).map
      (fun k => min (BATCH_SIZE * (k + 1)) combos.length) := by
    rw [hlog]
    show [] ++ partialCounts 0 (chunkList combos) = _
    rw [List.nil_append,
      partialCounts_chunkList_aux combos.length combos 0 (Nat.le_refl _)]
    simp only [Nat.zero_add]
  refine ⟨(if 0 < st₀.pending.length then
      { st₀ with pending := [], saves := st₀.saves ++ [(st₀.checked, st₀.pending)] }
    else st₀), ?_, ?_, ?_, fun _ _ _ _ => rfl⟩
  · simp only [runTld, hrun]
  · split <;> exact hc
  · split <;> exact hl

/-- Witness for C7: a one-batch run of the 26 single-letter combinations
against an oracle that always responds. -/
theorem C7_counter_invariant_witness :
    ∃ st, runTld (generateCombos 1) ".com".data
        (fun _ => FetchOutcome.response true none) = .ok st ∧
      st.checked = (generateCombos 1).length ∧
      st.checkedLog = (List.range (chunkList (generateCombos 1)).length).map
        (fun k => min (BATCH_SIZE * (k + 1)) (generateCombos 1).length) ∧
      (∀ (totalCombos : Nat) (s : TldState) (b : List (List Char))
        (res : List AvailRecord),
        (batchStep totalCombos s b res).checked = s.checked + b.length) :=
  C7_counter_invariant (generateCombos 1) ".com".data
    (fun _ => FetchOutcome.response true none)
    (fun _ hEq => FetchOutcome.noConfusion hEq)

/-! ### C3: failure handling at the query boundary -/

set_option maxRecDepth 40000 in
/-- Counterexample to C3 as stated: a transport failure (rejected fetch)
is not converted to an empty result sequence — `checkDomainsBatch` has no
try/catch, so the exception escapes the batch loop and aborts the run of
the 26 one-letter candidates. -/
theorem C3_counterexample :
    checkDomainsBatch ["a.com".data] FetchOutcome.transportError = Except.error () ∧
    runTld (generateCombos 1) ".com".data (fun _ => FetchOutcome.transportError) =
      Except.error () :=
  ⟨rfl, rfl⟩

/-- C3 amended: a non-success registrar response yields an empty result
sequence for its batch, contributes no entry to the available set, and —
as long as every query gets a response rather than a transport failure —
the batch loop runs to completion; an uncaught transport failure, by
contrast, aborts the run (see the counterexample). -/
theorem C3_amended_failures (combos : List (List Char)) (tld : List Char)
    (oracle : Nat → FetchOutcome)
    (h : ∀ i, oracle i ≠ FetchOutcome.transportError) :
    (∀ (b : List (List Char)) (ds : Option (List AvailRecord)),
      checkDomainsBatch b (FetchOutcome.response false ds) = Except.ok []) ∧
    (∀ (totalCombos : Nat) (st : TldState) (b : List (List Char))
      (ds : Option (List AvailRecord)),
      processBatch totalCombos st b (FetchOutcome.response false ds) =
        Except.ok (batchStep totalCombos st b []) ∧
      (batchStep totalCombos st b []).available = st.available) ∧
    (∃ st, runTld combos tld oracle = Except.ok st) := by
  refine ⟨fun b ds => rfl, fun totalCombos st b ds => ⟨?_, ?_⟩, ?_⟩
  · rw [processBatch_response]
    simp
  · simp [batchStep, availableNames]
  · obtain ⟨st₀, hrun, -, -⟩ :=
      runBatches_response_ok combos.length oracle tld h (chunkList combos) 0 initState
    refine ⟨(if 0 < st₀.pending.length then
        { st₀ with pending := [], saves := st₀.saves ++ [(st₀.checked, st₀.pending)] }
      else st₀), ?_⟩
    simp only [runTld, hrun]

/-- Witness for C3 (amended) on a concrete one-batch run whose single
query gets an ok response. -/
theorem C3_amended_failures_witness :
    (∀ (b : List (List Char)) (ds : Option (List AvailRecord)),
      checkDomainsBatch b (FetchOutcome.response false ds) = Except.ok []) ∧
    (∀ (totalCombos : Nat) (st : TldState) (b : List (List Char))
      (ds : Option (List AvailRecord)),
      processBatch totalCombos st b (FetchOutcome.response false ds) =
        Except.ok (batchStep totalCombos st b []) ∧
      (batchStep totalCombos st b []).available = st.available) ∧
    (∃ st, runTld ["a".data] ".com".data
      (fun _ => FetchOutcome.response true none) = Except.ok st) :=
  C3_amended_failures ["a".data] ".com".data
    (fun _ => FetchOutcome.response true none)
    (fun _ hEq => FetchOutcome.noConfusion hEq)

/-! ### C5: the save cadence -/

/-- Counterexample to C5 as stated: after a batch that makes the counter
reach the total (26 of 26 checked, nothing pending), the claimed iff
forces a save event, but the code saves only when the pending buffer is
nonempty — here `saves` is unchanged. -/
theorem C5_counterexample :
    ¬ (∀ (totalCombos : Nat) (st : TldState) (batch : List (List Char))
        (results : List AvailRecord),
        ((batchStep totalCombos st batch results).saves ≠ st.saves ↔
          (SAVE_INTERVAL ≤ st.checked + batch.length - st.lastSavedAt ∨
            st.checked + batch.length = totalCombos))) := by
  intro hclaim
  have h := (hclaim 26 initState (List.replicate 26 "a".data) []).mpr
    (Or.inr (by decide))
  exact h (by decide)

set_option maxRecDepth 100000 in
/-- C5 amended: a save event (writer call) occurs after a batch iff the
threshold is crossed or the counter reached the total, AND the pending
buffer is nonempty; in the 1200-combination scenario with at least one
available name per window, saves trigger at checked counts 500, 1000 and
1200. -/
theorem C5_amended_cadence :
    (∀ (totalCombos : Nat) (st : TldState) (batch : List (List Char))
        (results : List AvailRecord),
        ((batchStep totalCombos st batch results).saves ≠ st.saves ↔
          ((SAVE_INTERVAL ≤ st.checked + batch.length - st.lastSavedAt ∨
              st.checked + batch.length = totalCombos) ∧
            st.pending ++ availableNames results ≠ []))) ∧
    savesCheckpoints (runTld (List.replicate 1200 "a".data) ".com".data
        (fun _ => FetchOutcome.response true (some [⟨"x.com".data, true⟩]))) =
      [500, 1000, 1200] := by
  constructor
  · intro totalCombos st batch results
    simp only [batchStep]
    by_cases hds : ((SAVE_INTERVAL ≤ st.checked + batch.length - st.lastSavedAt ∨
        st.checked + batch.length = totalCombos) ∧
      0 < (st.pending ++ availableNames results).length)
    · rw [if_pos hds]
      constructor
      · intro _
        exact ⟨hds.1, List.length_pos.mp hds.2⟩
      · intro _ heq
        have hlen := congrArg List.length heq
        simp at hlen
    · rw [if_neg hds]
      constructor
      · intro hne
        exact absurd rfl hne
      · intro hc
        exact absurd ⟨hc.1, List.length_pos.mpr hc.2⟩ hds
  · decide

/-! ### C1: the filter invariant -/

/-- C1: whenever the filter is not disabled ("none") and, for "auto", the
table entry is nonempty, every combination the filter passes on to the
batch checker matches at least one active signature and is plausible. -/
theorem C1_filter_invariant (numberOfLetters : Nat) (combos : List (List Char))
    (patternFilter : List Char) (h1 : patternFilter ≠ "none".data)
    (h2 : patternFilter = "auto".data →
      getBestPatternsForLength numberOfLetters ≠ []) :
    ∀ combo ∈ filterByPattern numberOfLetters combos patternFilter,
      (activePatterns numberOfLetters patternFilter).any
        (fun pat => matchesPattern combo pat) = true ∧
      hasGoodPronounceability combo = true := by
  intro combo hmem
  by_cases ha : patternFilter = "auto".data
  · have htab := h2 ha
    simp only [filterByPattern] at hmem
    rw [if_neg h1, if_pos ha,
      if_neg (fun hl => htab (List.length_eq_zero.mp hl))] at hmem
    obtain ⟨-, hpred⟩ := List.mem_filter.mp hmem
    obtain ⟨hany, hgood⟩ := Bool.and_eq_true_iff.mp hpred
    refine ⟨?_, hgood⟩
    unfold activePatterns
    rw [if_pos ha]
    exact hany
  · simp only [filterByPattern] at hmem
    rw [if_neg h1, if_neg ha] at hmem
    obtain ⟨-, hpred⟩ := List.mem_filter.mp hmem
    obtain ⟨hany, hgood⟩ := Bool.and_eq_true_iff.mp hpred
    refine ⟨?_, hgood⟩
    unfold activePatterns
    rw [if_neg ha]
    exact hany

/-- Witness for C1: "cat" survives the auto filter at length 3 and indeed
matches an active signature and is plausible. -/
theorem C1_filter_invariant_witness :
    (activePatterns 3 "auto".data).any
      (fun pat => matchesPattern "cat".data pat) = true ∧
    hasGoodPronounceability "cat".data = true :=
  C1_filter_invariant 3 ["cat".data] "auto".data (by decide) (by decide)
    "cat".data (by decide)

/-! ### C10: length 1 with "auto" filters everything out -/

/-- C10: the table has no entry for length 1, the fallback filters by
plausibility alone, no single-character string is plausible, so the
filter output is empty and a run over it issues no query and checks
nothing. -/
theorem C10_length_one_auto_empty :
    getBestPatternsForLength 1 = [] ∧
    (∀ c : Char, hasGoodPronounceability [c] = false) ∧
    filterByPattern 1 (generateCombos 1) "auto".data = [] ∧
    (∀ (tld : List Char) (oracle : Nat → FetchOutcome),
      runTld (filterByPattern 1 (generateCombos 1) "auto".data) tld oracle =
        Except.ok initState) := by
  have hsingle : ∀ c : Char, hasGoodPronounceability [c] = false := by
    intro c
    by_cases hv : isVowel c = true
    · have hp : getPattern [c] = ['V'] := by simp [getPattern, hv]
      simp only [hasGoodPronounceability, hp]
      decide
    · have hp : getPattern [c] = ['C'] := by simp [getPattern, hv]
      simp only [hasGoodPronounceability, hp]
      decide
  have hfil : filterByPattern 1 (generateCombos 1) "auto".data = [] := by decide
  refine ⟨by decide, hsingle, hfil, ?_⟩
  intro tld oracle
  rw [hfil]
  rfl
